import Mathlib

/-!
Verification of the toastmasters-club-reporter core against its spec.

The Python sources are shallowly embedded: dictionaries with known shapes
become structures whose fields carry the `.get` defaults the code uses;
mutation becomes explicit state passing (a method returns the updated
object); `raise` becomes `Except`; Python `float` arithmetic is modelled by
exact rationals (`ℚ`) with `round(x, 1)` modelled as round-half-to-even on
rationals; insertion-ordered dicts become association lists.  String methods
are re-implemented over `List Char` with structural recursion so that every
definition evaluates by kernel reduction (Python's `str` methods on the
ASCII inputs the code handles behave identically).
-/

namespace TCR

/-! ## Python string semantics over `List Char` -/

/-- `sub in l` for strings: some contiguous run of `l` starts with `sub`. -/
def listContains (l sub : List Char) : Bool :=
  sub.isPrefixOf l ||
    match l with
    | [] => false
    | _ :: rest => listContains rest sub

/-- `s.split(sep)` for a non-empty separator, fuelled so the recursion is
structural (`fuel ≥ l.length` makes the fuel bound non-binding). -/
def pySplitGo (sep : List Char) : Nat → List Char → List Char → List (List Char)
  | 0, rest, acc => [acc.reverse ++ rest]
  | _ + 1, [], acc => [acc.reverse]
  | fuel + 1, c :: rest, acc =>
    if sep.isPrefixOf (c :: rest) then
      acc.reverse :: pySplitGo sep fuel ((c :: rest).drop sep.length) []
    else
      pySplitGo sep fuel rest (c :: acc)

/-- Python `s.split(sep)` on char lists (`sep` assumed non-empty, as in the
source, which only splits on `"Level"`). -/
def pySplitOn (l sep : List Char) : List (List Char) :=
  pySplitGo sep (l.length + 1) l []

/-- Python `s.strip()`: drop whitespace at both ends. -/
def pyStrip (l : List Char) : List Char :=
  ((l.dropWhile Char.isWhitespace).reverse.dropWhile Char.isWhitespace).reverse

/-- Python `s.split()` (no separator): split on whitespace runs, no empties. -/
def pySplitWs : List Char → List Char → List (List Char)
  | [], acc => if acc.isEmpty then [] else [acc.reverse]
  | c :: rest, acc =>
    if c.isWhitespace then
      if acc.isEmpty then pySplitWs rest []
      else acc.reverse :: pySplitWs rest []
    else pySplitWs rest (c :: acc)

/-- Value of a non-empty all-digit token, else `none`. -/
def digitsVal (l : List Char) : Option Nat :=
  if l.isEmpty || !(l.all Char.isDigit) then none
  else some (l.foldl (fun a c => a * 10 + (c.toNat - '0'.toNat)) 0)

/-- Python `int(token)` on an already-stripped token: optional sign, then
digits (the source feeds it single whitespace-free tokens). -/
def pyParseInt : List Char → Option Int
  | [] => none
  | '-' :: ds => (digitsVal ds).map (fun n => -(n : Int))
  | '+' :: ds => (digitsVal ds).map (fun n => (n : Int))
  | ds => (digitsVal ds).map (fun n => (n : Int))

/-- Python `s.startswith(pre)`. -/
def pyStartsWith (s pre : String) : Bool :=
  pre.toList.isPrefixOf s.toList

/-- Python `sub in s`. -/
def pyContains (s sub : String) : Bool :=
  listContains s.toList sub.toList

/-- Python `s.replace(a, b)` (replace every occurrence): `b.join(s.split(a))`. -/
def pyReplace (s a b : String) : String :=
  String.mk (((pySplitOn s.toList a.toList).intersperse b.toList).flatten)

/-- Python `s.lower()` (ASCII case folding, as the inputs here are ASCII). -/
def pyLower (s : String) : String :=
  String.mk (s.toList.map Char.toLower)

/-! ## Rounding: Python `round(x, 1)` on exact rationals -/

/-- Round half to even (Python's `round` on floats uses this tie-break). -/
def roundHalfEven (q : ℚ) : ℤ :=
  if q - ⌊q⌋ < 1 / 2 then ⌊q⌋
  else if 1 / 2 < q - ⌊q⌋ then ⌊q⌋ + 1
  else if ⌊q⌋ % 2 = 0 then ⌊q⌋ else ⌊q⌋ + 1

/-- Python `round(x, 1)`: round to one decimal digit. -/
def round1 (q : ℚ) : ℚ :=
  ((roundHalfEven (q * 10) : ℤ) : ℚ) / 10

/-! ## `model/member.py`: the Progression Calculator -/

/-- One level's entry of a `progression` payload; fields carry the `.get`
defaults used by the source (`approved` → `False`, `completed`/`total` → 0). -/
structure LevelData where
  approved : Bool := false
  completed : Int := 0
  total : Int := 0
deriving DecidableEq, Repr

/-- A `progression` payload: an insertion-ordered dict keyed by level name. -/
abbrev Progression := List (String × LevelData)

/-- `Member._extract_level_number`: the integer after the first `"Level"`,
or 0 when absent or unparsable. -/
def extract_level_number (level_name : String) : Int :=
  match (pySplitOn level_name.toList "Level".toList).drop 1 with
  | [] => 0
  | after :: _ =>
    match (pySplitWs (pyStrip after) []).head? with
    | none => 0
    | some tok => (pyParseInt tok).getD 0

/-- The `for level_name, level_data in progression.items()` loop of
`Member._calculate_current_level` (returns before clamping). -/
def currentLevelLoop : Progression → Int → Int → Int × Int
  | [], current_level, remaining => (current_level, remaining)
  | (level_name, level_data) :: rest, current_level, remaining =>
    if pyStartsWith level_name "Level" then
      let level_num := extract_level_number level_name
      if level_data.approved || level_data.completed = level_data.total then
        currentLevelLoop rest (level_num + 1) remaining
      else if level_data.completed > 0 then
        (level_num, level_data.total - level_data.completed)  -- sets both, breaks
      else
        currentLevelLoop rest current_level remaining
    else
      currentLevelLoop rest current_level remaining

/-- `Member._calculate_current_level`: current level and remaining projects
in that level, clamped as in the source (`min(·, 5)`, `max(·, 0)`). -/
def calculate_current_level (progression : Progression) : Int × Int :=
  let (current_level, remaining) := currentLevelLoop progression 1 0
  (min current_level 5, max remaining 0)

/-- The summation loop of `Member._calculate_completion_percentage`:
`(total_projects, completed_projects)` over `"Level"`-prefixed entries. -/
def sumLevels (progression : Progression) : Int × Int :=
  progression.foldl
    (fun (acc : Int × Int) entry =>
      if pyStartsWith entry.1 "Level" then
        (acc.1 + entry.2.total, acc.2 + entry.2.completed)
      else acc)
    (0, 0)

/-- `Member._calculate_completion_percentage`: completion percentage and
remaining projects in the pathway. -/
def calculate_completion_percentage (progression : Progression) : ℚ × Int :=
  let sums := sumLevels progression
  let completion_percentage : ℚ :=
    if sums.1 > 0 then round1 ((sums.2 : ℚ) / (sums.1 : ℚ) * 100) else 0
  (completion_percentage, max (sums.1 - sums.2) 0)

/-! ## `model/member.py`: Pathway / Project / Summary / Member -/

/-- `class Pathway` of `model/member.py`. -/
structure Pathway where
  name : String
  course_id : String
  current_level : Int
  completion_percentage : ℚ
  remaining_projects_in_level : Int
  remaining_projects_in_pathway : Int
  status : String
deriving DecidableEq, Repr

/-- `class Project` of `model/member.py`. -/
structure Project where
  name : String
  type : String
  pathway_name : String
  course_id : String
  duration : String
  level : Int
deriving DecidableEq, Repr

/-- `class Summary` of `model/member.py` (`generate_summary` always passes a
string for `most_active_pathway`). -/
structure Summary where
  total_pathways : Nat
  active_pathways : Nat
  completed_pathways : Nat
  most_active_pathway : String
deriving DecidableEq, Repr

/-- `class Member` of `model/member.py`; `summary` is `None` until
`generate_summary` runs. -/
structure Member where
  member_id : Int
  username : String
  first_name : String
  last_name : String
  display_name : String
  email : String
  completed_pathways : List String
  next_projects : List Project
  current_pathways : List Pathway
  summary : Option Summary
deriving DecidableEq, Repr

/-- `Member.__init__` (with `display_name = f"{first_name} {last_name}"`,
empty project/pathway lists and no summary). -/
def Member.init (member_id : Int) (username first_name last_name email : String)
    (completed_pathways : List String) : Member :=
  { member_id, username, first_name, last_name,
    display_name := first_name ++ " " ++ last_name, email,
    completed_pathways, next_projects := [], current_pathways := [],
    summary := none }

/-- `Member.add_pathway_progress`: appends one `Pathway` record built from
the progression payload. -/
def Member.add_pathway_progress (m : Member) (pathway_name course_id : String)
    (progression : Progression) : Member :=
  let lvl := calculate_current_level progression
  let pct := calculate_completion_percentage progression
  let pathway_info : Pathway :=
    { name := pathway_name, course_id,
      current_level := lvl.1,
      completion_percentage := pct.1,
      remaining_projects_in_level := lvl.2,
      remaining_projects_in_pathway := pct.2,
      status := if m.completed_pathways.contains pathway_name then "completed" else "active" }
  { m with current_pathways := m.current_pathways ++ [pathway_info] }

/-- A node of the detailed `blocks` tree.  `display_name` is optional because
the source reads it with three different `.get` defaults; the other fields
carry defaults equivalent to the source's (`.get('type')` etc. default to a
value unequal to every compared literal). -/
inductive Block where
  | mk (type : String) (display_name : Option String) (complete : Bool)
       (block_lib_type : String) (min_req_electives : Int) (children : List Block)
deriving Repr

/-- The `type` key of a block dict (`.get('type')`). -/
def Block.type : Block → String
  | .mk t _ _ _ _ _ => t

/-- The `display_name` key of a block dict. -/
def Block.display_name : Block → Option String
  | .mk _ d _ _ _ _ => d

/-- The `complete` key of a block dict (`.get('complete', False)`). -/
def Block.complete : Block → Bool
  | .mk _ _ c _ _ _ => c

/-- The `block_lib_type` key of a block dict. -/
def Block.block_lib_type : Block → String
  | .mk _ _ _ b _ _ => b

/-- The `min_req_electives` key of a chapter dict (`.get(·, 0)`). -/
def Block.min_req_electives : Block → Int
  | .mk _ _ _ _ n _ => n

/-- The `children` key of a block dict (`.get('children', [])`). -/
def Block.children : Block → List Block
  | .mk _ _ _ _ _ cs => cs

/-- The `for child in chapter.get('children', [])` loop of
`Member._extract_next_projects`: incomplete non-elective projects, incomplete
elective choices, and the count of completed electives, in document order. -/
def scanChildren (pathway_name course_id : String) (level_num : Int) :
    List Block → List Project × List Block × Int
  | [] => ([], [], 0)
  | child :: rest =>
    let acc := scanChildren pathway_name course_id level_num rest
    if child.type == "sequential" then
      let fromChild : List Project × List Block :=
        if !child.complete then
          if child.block_lib_type == "elective" then ([], [child])
          else
            ([{ name := pyReplace (child.display_name.getD "Unknown Project") "(Legacy)" "",
                type := if pyContains (pyLower (child.display_name.getD "")) "speech"
                        then "speech" else "project",
                pathway_name, course_id,
                duration := "Duration not specified",
                level := level_num }], [])
        else ([], [])
      let completedInc : Int :=
        if child.complete && child.block_lib_type == "elective" then 1 else 0
      (fromChild.1 ++ acc.1, fromChild.2 ++ acc.2.1, completedInc + acc.2.2)
    else acc

/-- The synthesized elective entry's display name:
`f"Choose {remaining_electives} elective(s) from {level_name}"`. -/
def chooseElectivesName (remaining_electives : Int) (level_name : String) : String :=
  s!"Choose {remaining_electives} elective(s) from {level_name}"

/-- One chapter's contribution in `Member._extract_next_projects`: the
chapter's incomplete entries, with the single synthesized elective entry
appended when elective choices remain and `min_req_electives > 0`. -/
def chapter_incomplete_entries (chapter : Block) (pathway_name course_id : String) :
    List Project :=
  let level_name := chapter.display_name.getD ""
  let level_num := extract_level_number level_name
  let scan := scanChildren pathway_name course_id level_num chapter.children
  let incomplete_projects := scan.1
  let elective_choices := scan.2.1
  let completed_electives := scan.2.2
  if !elective_choices.isEmpty then
    let min_req_electives := chapter.min_req_electives
    let remaining_electives := min_req_electives - completed_electives
    if min_req_electives > 0 then
      incomplete_projects ++
        [{ name := chooseElectivesName remaining_electives level_name,
           type := "elective", pathway_name, course_id,
           duration := "Varies by selection", level := level_num }]
    else incomplete_projects
  else incomplete_projects

/-- The chapter loop of `Member._extract_next_projects`: skip non-chapter
nodes, stop at the first chapter that yields an incomplete entry. -/
def extract_next_projects (pathway_name course_id : String) : List Block → List Project
  | [] => []
  | chapter :: rest =>
    if chapter.type != "chapter" then
      extract_next_projects pathway_name course_id rest
    else
      let incomplete := chapter_incomplete_entries chapter pathway_name course_id
      if incomplete.isEmpty then extract_next_projects pathway_name course_id rest
      else incomplete

/-- A `progress_detail` data payload: its `blocks` dict (`none` when the key
is absent or the dict is empty/falsy, in which case the method returns). -/
structure DetailedData where
  blocks : Option Block := none

/-- `Member.add_detailed_progress`: record the first extracted next project. -/
def Member.add_detailed_progress (m : Member) (course_id : String)
    (detailed_data : DetailedData) : Member :=
  match detailed_data.blocks with
  | none => m
  | some blocks =>
    let pathway_name := blocks.display_name.getD "Unknown"
    let next_projects := extract_next_projects pathway_name course_id blocks.children
    match next_projects with
    | [] => m
    | p :: _ => { m with next_projects := m.next_projects ++ [p] }

/-- Python `max(xs, key=key, default=None)`: the first element attaining the
maximum (later elements replace the best only when strictly greater). -/
def pyMax {α : Type} (key : α → ℚ) : List α → Option α
  | [] => none
  | x :: xs => some (xs.foldl (fun best y => if key best < key y then y else best) x)

/-- `Member._get_total_pathway_count`: current pathways plus completed ones
whose name is not already among the current pathway names. -/
def Member.get_total_pathway_count (m : Member) : Nat :=
  m.current_pathways.length +
    (m.completed_pathways.filter
      (fun completed => !(m.current_pathways.map (·.name)).contains completed)).length

/-- `Member.generate_summary`: set `summary` from the member's pathways. -/
def Member.generate_summary (m : Member) : Member :=
  let total_pathways := m.get_total_pathway_count
  let active_pathways := (m.current_pathways.filter (fun p => p.status == "active")).length
  let completed_pathways := m.completed_pathways.length
  let most_active := pyMax (fun p => p.completion_percentage) m.current_pathways
  let most_active_pathway :=
    match most_active with
    | some p => p.name
    | none => "None"
  { m with
    summary := some { total_pathways, active_pathways, completed_pathways,
                      most_active_pathway } }

/-! ## Errors

Python raises surface here as `Except`.  A bare `raise` with no active
exception (as in the fetch services) is a `runtimeError`; calling a method
with the wrong number of arguments is a `typeError`; attribute access on
`None` is an `attributeError`. -/

inductive PyError where
  | typeError
  | attributeError
  | runtimeError
deriving DecidableEq, Repr

/-! ## `model/club.py`: Statistics / Distribution / Club -/

/-- `class Statistics`; `summary_generated_at` receives the value of
`datetime.now().isoformat()`, threaded in as the `now` argument. -/
structure Statistics where
  total_members : Nat
  active_members : Nat
  completed_pathways_total : Nat
  summary_generated_at : String
deriving DecidableEq, Repr

/-- `class Distribution`: two insertion-ordered `Counter`s converted to dicts. -/
structure Distribution where
  pathway_distribution : List (String × Nat)
  level_distribution : List (Int × Nat)
deriving DecidableEq, Repr

/-- One entry of the `member_enrollment_status` list (`.get` defaults `False`). -/
structure EnrollmentStatus where
  is_paid : Bool := false
  is_enrolled : Bool := false
deriving DecidableEq, Repr

/-- `class Club`.  The class is dynamically typed: `build_club_index` passes
the members dict into the `dashboard_club_id` parameter position, so that
field's type is a parameter `δ` (a string in the intended use). -/
structure Club (δ : Type) where
  club_id : String
  club_name : String
  dashboard_club_id : δ
  members : List (String × Member)
  statistics : Option Statistics
  distribution : Option Distribution
deriving DecidableEq, Repr

/-- `Counter[k] += 1`: increment in place (insertion order preserved),
appending a fresh key at the end. -/
def counterIncr {α : Type} [BEq α] (counter : List (α × Nat)) (k : α) : List (α × Nat) :=
  if counter.any (fun kv => kv.1 == k) then
    counter.map (fun kv => if kv.1 == k then (kv.1, kv.2 + 1) else kv)
  else counter ++ [(k, 1)]

/-- The `for member in self.members.values()` loop of `Club.generate_summary`:
sums completed pathways (raising `AttributeError` at the first member whose
`summary` is `None`) and accumulates the two active-pathway counters. -/
def clubLoop : List Member → Nat → List (String × Nat) → List (Int × Nat) →
    Except PyError (Nat × List (String × Nat) × List (Int × Nat))
  | [], total, pd, ld => .ok (total, pd, ld)
  | member :: rest, total, pd, ld =>
    match member.summary with
    | none => .error .attributeError  -- `member.summary.completed_pathways` on None
    | some s =>
      let total := total + s.completed_pathways
      let dists := member.current_pathways.foldl
        (fun (acc : List (String × Nat) × List (Int × Nat)) pathway =>
          if pathway.status == "active" then
            (counterIncr acc.1 pathway.name, counterIncr acc.2 pathway.current_level)
          else acc)
        (pd, ld)
      clubLoop rest total dists.1 dists.2

/-- `Club.generate_summary(member_enrollment_status)`: fills `statistics`
and `distribution`; `now` is the clock value captured by
`Statistics.__init__` via `datetime.now().isoformat()`. -/
def Club.generate_summary {δ : Type} (club : Club δ)
    (member_enrollment_status : List EnrollmentStatus) (now : String) :
    Except PyError (Club δ) :=
  let paid_members := member_enrollment_status.filter (·.is_paid)
  let total_members := paid_members.length
  let active_members := (paid_members.filter (·.is_enrolled)).length
  match clubLoop (club.members.map (·.2)) 0 [] [] with
  | .error e => .error e
  | .ok (completed_pathways_total, pathway_distribution, level_distribution) =>
    .ok { club with
      statistics := some { total_members, active_members, completed_pathways_total,
                           summary_generated_at := now },
      distribution := some { pathway_distribution, level_distribution } }

/-- A Python-level call of `Club.generate_summary` with a positional argument
list: any arity other than one raises `TypeError` before the body runs. -/
def generate_summary_call {δ : Type} (club : Club δ)
    (args : List (List EnrollmentStatus)) (now : String) : Except PyError (Club δ) :=
  match args with
  | [member_enrollment_status] => club.generate_summary member_enrollment_status now
  | _ => .error .typeError

/-! ## `service/pathway_analyzer_service.py` -/

/-- One entry of a pathway file's `elective_options` (`.get('name', '')`). -/
structure ElectiveOption where
  name : String := ""
deriving DecidableEq, Repr

/-- One project of a pathway-definition file. -/
structure FileProject where
  name : String
  duration : Option String := none
  type : Option String := none
  elective_options : List ElectiveOption := []
deriving DecidableEq, Repr

/-- One level of a pathway-definition file (`.get('projects', [])`). -/
structure PathwayLevel where
  projects : List FileProject := []
deriving DecidableEq, Repr

/-- One pathway-definition file (`.get('levels', {})`). -/
structure PathwayData where
  levels : List (String × PathwayLevel) := []
deriving DecidableEq, Repr

/-- `PathwayAnalyzerService.pathways_data`, keyed by pathway name. -/
abbrev PathwaysData := List (String × PathwayData)

/-- First-match lookup in an insertion-ordered dict. -/
def alookup {α : Type} : List (String × α) → String → Option α
  | [], _ => none
  | kv :: rest, k => if kv.1 = k then some kv.2 else alookup rest k

/-- The `normalize_str` helper: `name.replace(" ", "").lower()`. -/
def normalize_str (name : String) : String :=
  pyLower (pyReplace name " " "")

/-- The dict `get_project_details` returns: `type` is absent (`none` maps
the missing key) on the elective-option match. -/
structure Details where
  duration : String
  type : Option String
deriving DecidableEq, Repr

/-- The project search loop of `PathwayAnalyzerService.get_project_details`. -/
def searchProjects (project_name : String) : List FileProject → Option Details
  | [] => none
  | project :: rest =>
    let norm_proj_name := normalize_str project_name
    if normalize_str project.name == norm_proj_name then
      some { duration := project.duration.getD "Duration not specified",
             type := project.type }
    else if project.type == some "elective" && !(pyContains norm_proj_name "elective") then
      match project.elective_options.find?
          (fun elective => normalize_str elective.name == norm_proj_name) with
      | some _ => some { duration := project.duration.getD "Duration not specified",
                         type := none }
      | none => searchProjects project_name rest
    else searchProjects project_name rest

/-- `PathwayAnalyzerService.get_project_details`.  When the pathway name is
unknown, `pathway_data` is `None` and the very next line calls `.get` on it,
raising `AttributeError` (the `if not pathway_data` guard comes too late). -/
def get_project_details (pathways_data : PathwaysData)
    (pathway_name project_name : String) (level : Int) :
    Except PyError (Option Details) :=
  match alookup pathways_data pathway_name with
  | none => .error .attributeError
  | some pathway_data =>
    let level_key := s!"Level {level}"
    match alookup pathway_data.levels level_key with
    | none => .ok none
    | some level_data => .ok (searchProjects project_name level_data.projects)

/-- `PathwayAnalyzerService.enrich_project_with_details`: overwrite the
project's duration/type with non-empty values from the pathway files. -/
def enrich_project_with_details (pathways_data : PathwaysData) (project : Project) :
    Except PyError Project := do
  let details ← get_project_details pathways_data project.pathway_name project.name project.level
  match details with
  | none => .ok project
  | some d =>
    let project := if d.duration != "" then { project with duration := d.duration } else project
    let project :=
      match d.type with
      | some t => if t != "" then { project with type := t } else project
      | none => project
    .ok project

/-! ## `service/toastmasters_data_service.py`: the Aggregator -/

/-- A `user` record of the overview/progress feeds. -/
structure UserRec where
  id : Int
  username : String
  first_name : String
  last_name : String
  email : String
deriving DecidableEq, Repr

/-- One `results` entry of an overview page (`.get('completed_paths', [])`). -/
structure OverviewResult where
  user : UserRec
  completed_paths : List String := []
deriving DecidableEq, Repr

/-- One overview page (`.get('results', [])`). -/
structure OverviewPage where
  results : List OverviewResult := []
deriving DecidableEq, Repr

/-- One `results` entry of a progress page. -/
structure ProgressResult where
  user : UserRec
  path_name : String
  course_id : String
  progression : Progression
deriving DecidableEq, Repr

/-- One progress page (`.get('results', [])`). -/
structure ProgressPage where
  results : List ProgressResult := []
deriving DecidableEq, Repr

/-- One entry of `data_output['progress_detail']`. -/
structure DetailRecord where
  username : String
  course_id : String
  data : DetailedData

/-- The raw dataset handed to the Aggregator (`data_output`). -/
structure RawData where
  overview : List OverviewPage := []
  progress : List ProgressPage := []
  progress_detail : List DetailRecord := []

/-- `dict` of members keyed by username, insertion-ordered. -/
abbrev MemberIndex := List (String × Member)

/-- All `results` entries of the progress pages, in page order. -/
def progressResults (raw : RawData) : List ProgressResult :=
  (raw.progress.map (fun page => page.results)).flatten

/-- In-place update of one key's value (`members[username].method(...)`);
a missing key leaves the dict unchanged, matching the source's
`if username in members` guards. -/
def updateValue {α : Type} (ms : List (String × α)) (k : String) (f : α → α) :
    List (String × α) :=
  ms.map (fun kv => if kv.1 = k then (kv.1, f kv.2) else kv)

/-- Step 1 body of `build_member_index`: create a `Member` for a first-seen
username (later occurrences are skipped). -/
def insertOverviewResult (members : MemberIndex) (result : OverviewResult) : MemberIndex :=
  let username := result.user.username
  if (alookup members username).isSome then members
  else
    members ++ [(username,
      Member.init result.user.id username result.user.first_name
        result.user.last_name result.user.email result.completed_paths)]

/-- Step 1 of `build_member_index`: basic member info from overview pages. -/
def memberIndexStep1 (raw : RawData) : MemberIndex :=
  raw.overview.foldl (fun ms page => page.results.foldl insertOverviewResult ms) []

/-- Step 2 of `build_member_index`: pathway progression onto known members. -/
def memberIndexStep2 (raw : RawData) (ms : MemberIndex) : MemberIndex :=
  raw.progress.foldl
    (fun ms page =>
      page.results.foldl
        (fun ms result =>
          updateValue ms result.user.username
            (fun m => m.add_pathway_progress result.path_name result.course_id
              result.progression))
        ms)
    ms

/-- Step 3 of `build_member_index`: detailed progress onto known members. -/
def memberIndexStep3 (raw : RawData) (ms : MemberIndex) : MemberIndex :=
  raw.progress_detail.foldl
    (fun ms entry =>
      updateValue ms entry.username
        (fun m => m.add_detailed_progress entry.course_id entry.data))
    ms

/-- Step 4 of `build_member_index`: enrich every member's next projects from
the pathway files, member by member (the first `AttributeError` aborts the
build). -/
def enrichMembers (pathways_data : PathwaysData) : MemberIndex → Except PyError MemberIndex
  | [] => .ok []
  | kv :: rest =>
    match kv.2.next_projects.mapM (enrich_project_with_details pathways_data) with
    | .error e => .error e
    | .ok nps =>
      match enrichMembers pathways_data rest with
      | .error e => .error e
      | .ok rest' => .ok ((kv.1, { kv.2 with next_projects := nps }) :: rest')

/-- `ToastmastersDataService.build_member_index`.  `pathways` is `some` when
a pathways directory is configured (the analyzer service is then initialized
with the loaded files); `none` skips enrichment. -/
def build_member_index (raw : RawData) (pathways : Option PathwaysData) :
    Except PyError MemberIndex :=
  let ms := memberIndexStep1 raw
  let ms := memberIndexStep2 raw ms
  let ms := memberIndexStep3 raw ms
  match pathways with
  | some pathways_data =>
    match enrichMembers pathways_data ms with
    | .error e => .error e
    | .ok ms' => .ok (ms'.map (fun kv => (kv.1, kv.2.generate_summary)))
  | none => .ok (ms.map (fun kv => (kv.1, kv.2.generate_summary)))

/-- The `Club(club_id, club_name, members)` call in `build_club_index`: three
positional arguments, so the members dict binds to `dashboard_club_id` and
the `members` parameter keeps its `{}` default. -/
def build_club_index_club (club_id club_name : String) (members : MemberIndex) :
    Club MemberIndex :=
  { club_id, club_name, dashboard_club_id := members, members := [],
    statistics := none, distribution := none }

/-- `ToastmastersDataService.build_club_index`: constructs the club, then
calls `club.generate_summary()` with no argument. -/
def build_club_index (club_id club_name : String) (members : MemberIndex)
    (now : String) : Except PyError (List (String × Club MemberIndex)) := do
  let club := build_club_index_club club_id club_name members
  let club ← generate_summary_call club [] now
  return [(club_id, club)]

/-- `ToastmastersManager.build_indexes`: the whole Aggregator run (member
index, then club index). -/
def build_indexes (raw : RawData) (pathways : Option PathwaysData)
    (club_id club_name : String) (now : String) :
    Except PyError (MemberIndex × List (String × Club MemberIndex)) := do
  let members ← build_member_index raw pathways
  let club ← build_club_index club_id club_name members now
  return (members, club)

/-! ## `api/client_api.py`: the HTTP Fetch Client -/

/-- A page payload as the pagination code sees it: the `results` list
(entries are opaque records, modelled as numbers) and the optional `next`
cursor. -/
structure PageDict where
  results : List Nat := []
  next : Option String := none
deriving DecidableEq, Repr

/-- The value of `make_request(url)`: `(success, data, status_code)`; `none`
data stands for `None` or a falsy (empty) payload, so that Python's
`success and data` is `success && data.isSome`. -/
abbrev Fetcher := String → Bool × Option PageDict × Int

/-- The `while next_url and page_count < 20` loop of
`ToastmastersAPIClient.handle_pagination`, with the pages the callback
collected.  `fuel` only makes the recursion structural: the loop runs at
most 19 times, so any `fuel ≥ 20 - page_count` is non-binding. -/
def paginationGo (fetch : Fetcher) :
    Nat → Option String → Nat → List PageDict → Nat × List PageDict
  | _, none, page_count, acc => (page_count, acc)
  | 0, some _, page_count, acc => (page_count, acc)
  | fuel + 1, some url, page_count, acc =>
    -- `while next_url and page_count < 20`: an absent or empty-string
    -- cursor is falsy and exits the loop
    if url = "" then (page_count, acc)
    else if page_count < 20 then
      match fetch url with
      | (true, some data, _) =>
        if data.results.isEmpty then (page_count + 1, acc)  -- pagination complete
        else paginationGo fetch fuel data.next (page_count + 1) (acc ++ [data])
      | _ => (page_count + 1, acc)  -- page failed: warn and break
    else (page_count, acc)

/-- `ToastmastersAPIClient.handle_pagination(initial_data, ...)`: returns the
page count and the pages passed to `data_callback`. -/
def handle_pagination (fetch : Fetcher) (initial_data : PageDict) :
    Nat × List PageDict :=
  paginationGo fetch 20 initial_data.next 1 []

/-! ## `service/toastmasters_api_service.py`: the Fetch Orchestrator -/

/-- `ToastmastersAPIService._fetch_primary_endpoint`: initial fetch of the
formatted endpoint URL, then pagination collecting further pages; any
initial failure is a bare `raise`, re-raised by the `except` block.  `urlOf`
stands for `app_settings.API_ENDPOINTS[name].format(club_id=..., page=1)`. -/
def fetch_primary_endpoint (fetch : Fetcher) (urlOf : String → String)
    (endpoint_name : String) : Except PyError (String × List PageDict) :=
  match fetch (urlOf endpoint_name) with
  | (true, some data, _) =>
    .ok (endpoint_name, data :: (handle_pagination fetch data).2)
  | _ => .error .runtimeError

/-- `ToastmastersAPIService.get_primary_endpoints`: gather all endpoint
tasks (joined after all complete), then fail the whole phase if any task
raised, else return the endpoint-name → data mapping. -/
def get_primary_endpoints (fetch : Fetcher) (urlOf : String → String)
    (endpoints : List String) : Except PyError (List (String × List PageDict)) :=
  let results := endpoints.map (fetch_primary_endpoint fetch urlOf)
  if results.any (fun r => !r.isOk) then .error .runtimeError  -- bare `raise`
  else .ok (results.filterMap Except.toOption)

/-- How a failed detail fetch is surfaced.  Both are raised (as bare-`raise`
runtime errors); the constructors record the distinguished log message: the
spec's `SessionExpiredError` on HTTP 401 versus its `DetailFetchError`. -/
inductive DetailError where
  | sessionExpired
  | fetchFailed
deriving DecidableEq, Repr

/-- One successful entry of the detail phase's result list. -/
structure DetailOut where
  username : String
  course_id : String
  data : PageDict
deriving DecidableEq, Repr

/-- `ToastmastersAPIService._fetch_detailed_progress` for one
`(username, course_id)` pair; `urlOf course_id username` stands for the
formatted `progress_detail` URL template. -/
def fetch_detailed_progress (fetch : Fetcher) (urlOf : String → String → String)
    (username course_id : String) : Except DetailError DetailOut :=
  match fetch (urlOf course_id username) with
  | (true, some data, _) => .ok { username, course_id, data }
  | (_, _, status_code) =>
    if status_code = 401 then .error .sessionExpired else .error .fetchFailed

/-- `ToastmastersAPIService.get_detailed_progress`: gather all pair tasks,
log failures, and return only the successful results (errors are tolerated;
the phase itself always completes). -/
def get_detailed_progress (fetch : Fetcher) (urlOf : String → String → String)
    (pairs : List (String × String)) : List DetailOut :=
  let results := pairs.map (fun p => fetch_detailed_progress fetch urlOf p.1 p.2)
  results.filterMap Except.toOption

/-! ## Spec-side definition for the most-active-pathway refinement -/

/-- The spec's reading of "most active": the first pathway (in insertion
order) whose completion percentage is at least that of every current
pathway.  This definition follows the spec's words; the code's `pyMax` is
proved equal to it. -/
def specFirstMax (ps : List Pathway) : Option Pathway :=
  ps.find? (fun p => ps.all (fun q =>
    decide (q.completion_percentage ≤ p.completion_percentage)))

/-- Strip the generation timestamp from a club's statistics (used to state
clock-independence of everything else). -/
def scrubTimestamp {δ : Type} (c : Club δ) : Club δ :=
  { c with statistics := c.statistics.map (fun s => { s with summary_generated_at := "" }) }

/-- The chapter's incomplete elective choices, as the scan loop collects
them: incomplete `sequential` children with `block_lib_type == 'elective'`. -/
def chapterElectiveChoices (chapter : Block) : List Block :=
  chapter.children.filter
    (fun c => c.type == "sequential" && !c.complete && c.block_lib_type == "elective")

/-- The chapter's completed elective count, as the scan loop counts it. -/
def chapterCompletedElectives (chapter : Block) : Int :=
  ((chapter.children.filter
    (fun c => c.type == "sequential" && c.complete && c.block_lib_type == "elective")).length : Int)

/-! # Theorems -/

/-! ## C1: `build_club_index` always raises `TypeError` -/

/-- C1: for every club identifier, club name and members mapping,
`build_club_index` raises `TypeError` and never returns a club model
containing the given members: the `Club` it builds has the members mapping
in `dashboard_club_id` and an empty `members` dict, and the no-argument
`generate_summary()` call fails the arity check of the method's required
`member_enrollment_status` parameter. -/
theorem c1_build_club_index_raises_type_error :
    ∀ (club_id club_name : String) (members : MemberIndex) (now : String),
      build_club_index club_id club_name members now = Except.error PyError.typeError
      ∧ (build_club_index_club club_id club_name members).members = []
      ∧ (build_club_index_club club_id club_name members).dashboard_club_id = members := by
  intro club_id club_name members now
  exact ⟨rfl, rfl, rfl⟩

/-! ## C2: pagination bound and stopping -/

/-- The loop never pushes the page count past 20. -/
theorem paginationGo_count_le (fetch : Fetcher) (fuel : Nat) :
    ∀ (next_url : Option String) (page_count : Nat) (acc : List PageDict),
      page_count ≤ 20 → (paginationGo fetch fuel next_url page_count acc).1 ≤ 20 := by
  induction fuel with
  | zero =>
    intro next_url page_count acc h
    cases next_url <;> simpa [paginationGo] using h
  | succ fuel ih =>
    intro next_url page_count acc h
    cases next_url with
    | none => simpa [paginationGo] using h
    | some url =>
      by_cases hurl : url = ""
      · simpa [paginationGo, hurl] using h
      · rcases hf : fetch url with ⟨s, d, st⟩
        by_cases hlt : page_count < 20
        · cases s
          · simp [paginationGo, hurl, hlt, hf]; omega
          · cases d with
            | none => simp [paginationGo, hurl, hlt, hf]; omega
            | some data =>
              by_cases hres : data.results.isEmpty
              · simp [paginationGo, hurl, hlt, hf, hres]; omega
              · simpa [paginationGo, hurl, hlt, hf, hres] using
                  ih data.next (page_count + 1) (acc ++ [data]) (by omega)
        · simpa [paginationGo, hurl, hlt, hf] using h

/-- C2: the processed page count never exceeds 20; within the budget, a
fetched page with empty `results` stops the loop exactly there (whatever its
`next` cursor says), a page with non-empty `results` is collected and the
loop continues to its cursor, and a failed fetch stops the loop normally
(no retry, no raised error: the function returns the count). -/
theorem c2_pagination_bound_and_stops :
    ∀ (fetch : Fetcher) (initial_data : PageDict),
      (handle_pagination fetch initial_data).1 ≤ 20
      ∧ (∀ (fuel page_count : Nat) (url : String) (acc : List PageDict)
            (data : PageDict) (status : Int),
          url ≠ "" → page_count < 20 → fetch url = (true, some data, status) →
          (data.results = [] →
            paginationGo fetch (fuel + 1) (some url) page_count acc
              = (page_count + 1, acc))
          ∧ (data.results ≠ [] →
            paginationGo fetch (fuel + 1) (some url) page_count acc
              = paginationGo fetch fuel data.next (page_count + 1) (acc ++ [data])))
      ∧ (∀ (fuel page_count : Nat) (url : String) (acc : List PageDict),
          url ≠ "" → page_count < 20 → (∀ (data : PageDict) (status : Int),
            fetch url ≠ (true, some data, status)) →
          paginationGo fetch (fuel + 1) (some url) page_count acc
            = (page_count + 1, acc)) := by
  intro fetch initial_data
  refine ⟨paginationGo_count_le fetch 20 initial_data.next 1 [] (by omega), ?_, ?_⟩
  · intro fuel page_count url acc data status hurl hlt hf
    constructor
    · intro hres
      simp [paginationGo, hurl, hlt, hf, List.isEmpty_iff, hres]
    · intro hres
      simp [paginationGo, hurl, hlt, hf, List.isEmpty_iff, hres]
  · intro fuel page_count url acc hurl hlt hfail
    rcases hf : fetch url with ⟨s, d, st⟩
    cases s
    · simp [paginationGo, hurl, hlt, hf]
    · cases d with
      | none => simp [paginationGo, hurl, hlt, hf]
      | some data => exact absurd hf (hfail data st)

/-- C2 witness: a concrete run.  The fetcher serves page 2 with one record
and a cursor, then an empty page carrying a further cursor; pagination stops
at the empty page, having processed 3 pages and collected only page 2. -/
theorem c2_pagination_witness :
    paginationGo (fun url => if url = "p2" then (true, some ⟨[7], some "p3"⟩, 200)
        else (true, some ⟨[], some "p4"⟩, 200)) 20 (some "p2") 1 []
      = paginationGo (fun url => if url = "p2" then (true, some ⟨[7], some "p3"⟩, 200)
        else (true, some ⟨[], some "p4"⟩, 200)) 19 (some "p3") 2 [⟨[7], some "p3"⟩] := by
  exact ((c2_pagination_bound_and_stops
    (fun url => if url = "p2" then (true, some ⟨[7], some "p3"⟩, 200)
      else (true, some ⟨[], some "p4"⟩, 200)) ⟨[], none⟩).2.1
    19 1 "p2" [] ⟨[7], some "p3"⟩ 200 (by decide) (by omega) (by decide)).2 (by decide)

/-! ## C3: current level and remaining-in-level -/

/-- C3 counterexample: the payload `{"Level 0": {completed: 1, total: 3}}`
is a mapping of level-name strings to level data, yet the computed current
level is 0, outside [1,5] (the source clamps only from above). -/
theorem c3_counterexample :
    ¬(1 ≤ (calculate_current_level [("Level 0", ⟨false, 1, 3⟩)]).1
      ∧ (calculate_current_level [("Level 0", ⟨false, 1, 3⟩)]).1 ≤ 5) := by
  decide

/-- The loop keeps the current level at least 1 as long as every
`"Level"`-prefixed key parses to a level number ≥ 1. -/
theorem currentLevelLoop_lower (progression : Progression)
    (h : ∀ e ∈ progression, pyStartsWith e.1 "Level" = true → 1 ≤ extract_level_number e.1) :
    ∀ (current_level remaining : Int), 1 ≤ current_level →
      1 ≤ (currentLevelLoop progression current_level remaining).1 := by
  induction progression with
  | nil => intro cl rem hcl; simpa [currentLevelLoop] using hcl
  | cons e rest ih =>
    intro cl rem hcl
    have hrest : ∀ e ∈ rest, pyStartsWith e.1 "Level" = true → 1 ≤ extract_level_number e.1 :=
      fun x hx => h x (List.mem_cons_of_mem _ hx)
    rcases e with ⟨level_name, level_data⟩
    by_cases hsw : pyStartsWith level_name "Level" = true
    · have hnum : 1 ≤ extract_level_number level_name :=
        h (level_name, level_data) (List.mem_cons_self _ _) hsw
      by_cases hdone : (level_data.approved || level_data.completed = level_data.total) = true
      · simpa [currentLevelLoop, hsw, hdone] using
          ih hrest (extract_level_number level_name + 1) rem (by omega)
      · by_cases hsome : level_data.completed > 0
        · simpa [currentLevelLoop, hsw, hdone, hsome] using hnum
        · simpa [currentLevelLoop, hsw, hdone, hsome] using ih hrest cl rem hcl
    · simpa [currentLevelLoop, hsw] using ih hrest cl rem hcl

/-- C3 amended: the computed current level is at most 5 and the remaining
count is non-negative for every payload; the current level is also at least
1 provided every `"Level"`-prefixed key of the payload carries a level
number ≥ 1 (e.g. names of the form `"Level N"` with N ≥ 1). -/
theorem c3_current_level_clamped (progression : Progression)
    (h : ∀ e ∈ progression, pyStartsWith e.1 "Level" = true → 1 ≤ extract_level_number e.1) :
    1 ≤ (calculate_current_level progression).1
    ∧ (calculate_current_level progression).1 ≤ 5
    ∧ 0 ≤ (calculate_current_level progression).2 := by
  have h1 : 1 ≤ (currentLevelLoop progression 1 0).1 :=
    currentLevelLoop_lower progression h 1 0 (by omega)
  refine ⟨?_, ?_, ?_⟩
  · simpa [calculate_current_level] using le_min h1 (by norm_num : (1 : ℤ) ≤ 5)
  · simp [calculate_current_level]
  · simp [calculate_current_level]

/-- C3 witness: a concrete valid payload (`Level 1`, 1 of 3 complete). -/
theorem c3_witness :
    1 ≤ (calculate_current_level [("Level 1", ⟨false, 1, 3⟩)]).1
    ∧ (calculate_current_level [("Level 1", ⟨false, 1, 3⟩)]).1 ≤ 5
    ∧ 0 ≤ (calculate_current_level [("Level 1", ⟨false, 1, 3⟩)]).2 :=
  c3_current_level_clamped [("Level 1", ⟨false, 1, 3⟩)] (by decide)

/-! ## C4: completion percentage -/

/-- Rounding an integer changes nothing. -/
theorem roundHalfEven_intCast (n : ℤ) : roundHalfEven (n : ℚ) = n := by
  unfold roundHalfEven
  norm_num [Int.floor_intCast]

/-- Round-half-even of a non-negative rational is non-negative. -/
theorem roundHalfEven_nonneg (q : ℚ) (hq : 0 ≤ q) : 0 ≤ roundHalfEven q := by
  have hn : 0 ≤ ⌊q⌋ := Int.floor_nonneg.mpr hq
  unfold roundHalfEven
  split_ifs <;> omega

/-- Round-half-even never overshoots an integer upper bound. -/
theorem roundHalfEven_le_int (q : ℚ) (m : ℤ) (h : q ≤ (m : ℚ)) :
    roundHalfEven q ≤ m := by
  have hfl : ⌊q⌋ ≤ m := by
    have := Int.floor_le_floor h
    simpa [Int.floor_intCast] using this
  have hlow : (⌊q⌋ : ℚ) ≤ q := Int.floor_le q
  unfold roundHalfEven
  split_ifs with h1 h2 h3
  · exact hfl
  · -- q - ⌊q⌋ > 1/2, so q > ⌊q⌋ and ⌊q⌋ < m
    rcases lt_or_ge ⌊q⌋ m with hlt | hge
    · omega
    · exfalso
      have hqm : q ≤ (⌊q⌋ : ℚ) := le_trans h (by exact_mod_cast hge)
      linarith
  · exact hfl
  · rcases lt_or_ge ⌊q⌋ m with hlt | hge
    · omega
    · exfalso
      have hqm : q ≤ (⌊q⌋ : ℚ) := le_trans h (by exact_mod_cast hge)
      have hr : (1 : ℚ) / 2 ≤ q - ⌊q⌋ := le_of_not_lt h1
      linarith

/-- The summation loop keeps `0 ≤ completed ≤ total` when every level's
data satisfies it. -/
theorem sumLevels_bounds (progression : Progression)
    (h : ∀ e ∈ progression, 0 ≤ e.2.completed ∧ e.2.completed ≤ e.2.total) :
    0 ≤ (sumLevels progression).2 ∧ (sumLevels progression).2 ≤ (sumLevels progression).1 := by
  suffices H : ∀ init : Int × Int, 0 ≤ init.2 → init.2 ≤ init.1 →
      0 ≤ (progression.foldl
        (fun (acc : Int × Int) entry =>
          if pyStartsWith entry.1 "Level" then
            (acc.1 + entry.2.total, acc.2 + entry.2.completed)
          else acc) init).2
      ∧ (progression.foldl
        (fun (acc : Int × Int) entry =>
          if pyStartsWith entry.1 "Level" then
            (acc.1 + entry.2.total, acc.2 + entry.2.completed)
          else acc) init).2
        ≤ (progression.foldl
        (fun (acc : Int × Int) entry =>
          if pyStartsWith entry.1 "Level" then
            (acc.1 + entry.2.total, acc.2 + entry.2.completed)
          else acc) init).1 by
    exact H (0, 0) (by omega) (by omega)
  induction progression with
  | nil => intro init h0 h1; exact ⟨h0, h1⟩
  | cons e rest ih =>
    intro init h0 h1
    have he := h e (by simp)
    have hrest : ∀ x ∈ rest, 0 ≤ x.2.completed ∧ x.2.completed ≤ x.2.total :=
      fun x hx => h x (List.mem_cons_of_mem _ hx)
    have ih' := ih hrest
    by_cases hsw : pyStartsWith e.1 "Level" = true
    · simpa [List.foldl_cons, hsw] using
        ih' (init.1 + e.2.total, init.2 + e.2.completed) (by simp; omega) (by simp; omega)
    · simpa [List.foldl_cons, hsw] using ih' init h0 h1

/-- C4 counterexample: the payload `{"Level 1": {completed: 5, total: 2}}`
yields a completion percentage of 250.0, outside [0.0, 100.0] (the source
never clamps the quotient). -/
theorem c4_counterexample :
    ¬((calculate_completion_percentage [("Level 1", ⟨false, 5, 2⟩)]).1 ≤ 100) := by
  have h : (calculate_completion_percentage [("Level 1", ⟨false, 5, 2⟩)]).1 = 250 := by
    norm_num [calculate_completion_percentage, sumLevels, pyStartsWith, round1]
    rw [show (2500 : ℚ) = ((2500 : ℤ) : ℚ) by norm_num, roundHalfEven_intCast]
    norm_num
  rw [h]
  norm_num

/-- C4 amended: the completion percentage equals `round(100·Σc/Σt, 1)` (0
when `Σt = 0`, indeed whenever `Σt ≤ 0`), the remaining-in-pathway count is
`max(Σt − Σc, 0)`, and the percentage lies in [0, 100] provided each level
satisfies `0 ≤ completed ≤ total` (without that, quotients above 1 are not
clamped). -/
theorem c4_completion_percentage (progression : Progression)
    (h : ∀ e ∈ progression, 0 ≤ e.2.completed ∧ e.2.completed ≤ e.2.total) :
    (calculate_completion_percentage progression).1
      = (if (sumLevels progression).1 > 0
         then round1 (((sumLevels progression).2 : ℚ) / ((sumLevels progression).1 : ℚ) * 100)
         else 0)
    ∧ ((sumLevels progression).1 = 0 → (calculate_completion_percentage progression).1 = 0)
    ∧ (calculate_completion_percentage progression).2
        = max ((sumLevels progression).1 - (sumLevels progression).2) 0
    ∧ 0 ≤ (calculate_completion_percentage progression).1
    ∧ (calculate_completion_percentage progression).1 ≤ 100 := by
  obtain ⟨hc0, hct⟩ := sumLevels_bounds progression h
  refine ⟨rfl, ?_, rfl, ?_, ?_⟩
  · intro ht
    simp [calculate_completion_percentage, ht]
  · by_cases ht : (sumLevels progression).1 > 0
    · have hx : (0 : ℚ) ≤ ((sumLevels progression).2 : ℚ)
          / ((sumLevels progression).1 : ℚ) * 100 := by
        have : (0 : ℚ) < ((sumLevels progression).1 : ℚ) := by exact_mod_cast ht
        positivity
      have := roundHalfEven_nonneg _ (by linarith :
        (0 : ℚ) ≤ ((sumLevels progression).2 : ℚ) / ((sumLevels progression).1 : ℚ) * 100 * 10)
      simp only [calculate_completion_percentage, if_pos ht, round1]
      positivity
    · simp [calculate_completion_percentage, ht]
  · by_cases ht : (sumLevels progression).1 > 0
    · have htq : (0 : ℚ) < ((sumLevels progression).1 : ℚ) := by exact_mod_cast ht
      have hdiv : ((sumLevels progression).2 : ℚ) / ((sumLevels progression).1 : ℚ) ≤ 1 := by
        rw [div_le_one htq]
        exact_mod_cast hct
      have hx : ((sumLevels progression).2 : ℚ)
          / ((sumLevels progression).1 : ℚ) * 100 * 10 ≤ ((1000 : ℤ) : ℚ) := by
        push_cast
        nlinarith
      have hrle := roundHalfEven_le_int _ 1000 hx
      simp only [calculate_completion_percentage, if_pos ht, round1]
      rw [div_le_iff₀ (by norm_num : (0 : ℚ) < 10)]
      calc ((roundHalfEven (((sumLevels progression).2 : ℚ)
              / ((sumLevels progression).1 : ℚ) * 100 * 10) : ℤ) : ℚ)
          ≤ ((1000 : ℤ) : ℚ) := by exact_mod_cast hrle
        _ = 100 * 10 := by norm_num
    · simp [calculate_completion_percentage, ht]

/-- C4 witness: one level, 1 of 2 complete. -/
theorem c4_witness :
    0 ≤ (calculate_completion_percentage [("Level 1", ⟨false, 1, 2⟩)]).1
    ∧ (calculate_completion_percentage [("Level 1", ⟨false, 1, 2⟩)]).1 ≤ 100 :=
  ⟨(c4_completion_percentage [("Level 1", ⟨false, 1, 2⟩)] (by decide)).2.2.2.1,
   (c4_completion_percentage [("Level 1", ⟨false, 1, 2⟩)] (by decide)).2.2.2.2⟩

/-! ## C5: the primary phase -/

/-- C5 counterexample: the `overview` endpoint's first page succeeds (with a
`next` cursor), the fetch of that cursor fails — pagination is not
exhausted — yet the primary phase returns a (truncated) result instead of
failing. -/
theorem c5_counterexample :
    get_primary_endpoints
        (fun url => if url = "overview" then (true, some ⟨[1], some "p2"⟩, 200)
          else (false, none, 500))
        (fun e => e) ["overview"]
      = Except.ok [("overview", [⟨[1], some "p2"⟩])]
    ∧ (fun url => if url = "overview" then (true, some ⟨[1], some "p2"⟩, 200)
        else ((false, none, 500) : Bool × Option PageDict × Int)) "p2"
      = (false, none, 500) := by
  constructor
  · rfl
  · decide

/-- `Bool.all` as the negation of `any not`. -/
theorem list_all_eq_not_any_not {α : Type} (l : List α) (p : α → Bool) :
    l.all p = !(l.any fun x => !p x) := by
  induction l with
  | nil => rfl
  | cons x xs ih => simp [List.all_cons, List.any_cons, ih]

/-- A successful detail fetch's entry carries the pair it was issued for. -/
theorem fetch_detailed_progress_ok_fields (fetch : Fetcher)
    (urlOf : String → String → String) (username course_id : String)
    (entry : DetailOut)
    (h : fetch_detailed_progress fetch urlOf username course_id = .ok entry) :
    entry.username = username ∧ entry.course_id = course_id := by
  unfold fetch_detailed_progress at h
  rcases hf : fetch (urlOf course_id username) with ⟨s, d, st⟩
  rw [hf] at h
  cases s
  · by_cases h401 : st = 401 <;> simp [h401] at h
  · cases d with
    | none => by_cases h401 : st = 401 <;> simp [h401] at h
    | some data =>
      simp only [Except.ok.injEq] at h
      rw [← h]
      exact ⟨rfl, rfl⟩

/-- C5 amended: the primary phase returns a result iff every endpoint's
*initial* fetch succeeded (and then it fails with the fatal bare-`raise`
error); a page failure *during* pagination is swallowed by
`handle_pagination`, so the endpoint still counts as a success and its data
is silently truncated. -/
theorem c5_primary_phase_initial_fetch_all_or_nothing (fetch : Fetcher)
    (urlOf : String → String) (endpoints : List String) :
    ((get_primary_endpoints fetch urlOf endpoints).isOk
      = endpoints.all (fun e => (fetch_primary_endpoint fetch urlOf e).isOk))
    ∧ ((∃ e ∈ endpoints, (fetch_primary_endpoint fetch urlOf e).isOk = false) →
        get_primary_endpoints fetch urlOf endpoints = .error .runtimeError)
    ∧ (∀ e, (fetch_primary_endpoint fetch urlOf e).isOk
        = (match fetch (urlOf e) with | (true, some _, _) => true | _ => false))
    ∧ (∀ e data status, fetch (urlOf e) = (true, some data, status) →
        fetch_primary_endpoint fetch urlOf e
          = .ok (e, data :: (handle_pagination fetch data).2)) := by
  have hmapany : ∀ (l : List String),
      (l.map (fetch_primary_endpoint fetch urlOf)).any (fun r => !r.isOk)
        = l.any (fun e => !(fetch_primary_endpoint fetch urlOf e).isOk) := by
    intro l
    induction l with
    | nil => rfl
    | cons x xs ih => simp [List.any_cons, ih]
  refine ⟨?_, ?_, ?_, ?_⟩
  · simp only [get_primary_endpoints, hmapany, list_all_eq_not_any_not]
    cases hany : endpoints.any (fun e => !(fetch_primary_endpoint fetch urlOf e).isOk)
    · simp [Except.isOk, Except.toBool]
    · simp [Except.isOk, Except.toBool]
  · intro ⟨e, he, hfail⟩
    have hany : endpoints.any (fun e => !(fetch_primary_endpoint fetch urlOf e).isOk) = true :=
      List.any_eq_true.mpr ⟨e, he, by simp [hfail]⟩
    simp only [get_primary_endpoints, hmapany, hany]
    simp
  · intro e
    unfold fetch_primary_endpoint
    rcases hf : fetch (urlOf e) with ⟨s, d, st⟩
    cases s
    · simp [Except.isOk, Except.toBool]
    · cases d <;> simp [Except.isOk, Except.toBool]
  · intro e data status hf
    unfold fetch_primary_endpoint
    rw [hf]

/-- C5 witness: one endpoint whose single page has no cursor; the phase
result is that endpoint's page list. -/
theorem c5_witness :
    fetch_primary_endpoint (fun _ => (true, some ⟨[1], none⟩, 200)) (fun e => e) "overview"
      = .ok ("overview",
          ⟨[1], none⟩ :: (handle_pagination (fun _ => (true, some ⟨[1], none⟩, 200)) ⟨[1], none⟩).2) :=
  (c5_primary_phase_initial_fetch_all_or_nothing
      (fun _ => (true, some ⟨[1], none⟩, 200)) (fun e => e) []).2.2.2
    "overview" ⟨[1], none⟩ 200 rfl

/-! ## C6: the detail phase -/

/-- C6: a detail fetch that fails with HTTP status 401 surfaces the
distinguished session-expired condition; the phase as a whole always
completes, returning exactly the successful entries in order; and the pair
whose fetch failed appears in no returned entry. -/
theorem c6_detail_phase_session_expiry (fetch : Fetcher)
    (urlOf : String → String → String) (pairs : List (String × String))
    (username course_id : String) :
    (∀ (success : Bool) (data : Option PageDict),
      fetch (urlOf course_id username) = (success, data, 401) →
      (success = false ∨ data = none) →
      fetch_detailed_progress fetch urlOf username course_id = .error .sessionExpired)
    ∧ (get_detailed_progress fetch urlOf pairs
        = pairs.filterMap (fun p => (fetch_detailed_progress fetch urlOf p.1 p.2).toOption))
    ∧ ((fetch_detailed_progress fetch urlOf username course_id).isOk = false →
        ∀ entry ∈ get_detailed_progress fetch urlOf pairs,
          ¬(entry.username = username ∧ entry.course_id = course_id)) := by
  refine ⟨?_, ?_, ?_⟩
  · intro success data hf hfalsy
    unfold fetch_detailed_progress
    rw [hf]
    rcases hfalsy with h | h
    · subst h; rfl
    · subst h; cases success <;> rfl
  · unfold get_detailed_progress
    rw [List.filterMap_map]
    rfl
  · intro hfail entry hmem ⟨h1, h2⟩
    unfold get_detailed_progress at hmem
    rw [List.filterMap_map] at hmem
    rcases List.mem_filterMap.mp hmem with ⟨p, hp, hsome⟩
    have hsome' : (fetch_detailed_progress fetch urlOf p.1 p.2).toOption = some entry := by
      simpa [Function.comp] using hsome
    have hok : fetch_detailed_progress fetch urlOf p.1 p.2 = .ok entry := by
      rcases hr : fetch_detailed_progress fetch urlOf p.1 p.2 with e | v
      · rw [hr] at hsome'; simp [Except.toOption] at hsome'
      · rw [hr] at hsome'
        simp only [Except.toOption, Option.some.injEq] at hsome'
        rw [hsome']
    obtain ⟨hu, hc⟩ := fetch_detailed_progress_ok_fields fetch urlOf p.1 p.2 entry hok
    have hp1 : p.1 = username := by rw [← hu, h1]
    have hp2 : p.2 = course_id := by rw [← hc, h2]
    rw [hp1, hp2] at hok
    rw [hok] at hfail
    simp [Except.isOk, Except.toBool] at hfail

/-- C6 witness: the spec's scenario — the fetch for ("jdoe","C1") answers
401, and the condition is surfaced as the session-expired error. -/
theorem c6_witness :
    fetch_detailed_progress (fun _ => (false, none, 401)) (fun c u => c ++ "/" ++ u)
      "jdoe" "C1" = .error .sessionExpired :=
  (c6_detail_phase_session_expiry (fun _ => (false, none, 401))
      (fun c u => c ++ "/" ++ u) [] "jdoe" "C1").1 false none rfl (Or.inl rfl)

/-! ## C8: most active pathway -/

/-- `find?` only looks at the predicate's values on the list's members. -/
theorem find?_congr_mem {α : Type} (l : List α) (p q : α → Bool)
    (h : ∀ a ∈ l, p a = q a) : l.find? p = l.find? q := by
  induction l with
  | nil => rfl
  | cons x xs ih =>
    have hx := h x (List.mem_cons_self _ _)
    have hxs := ih (fun a ha => h a (List.mem_cons_of_mem _ ha))
    cases hq : q x
    · rw [List.find?_cons_of_neg _ (by rw [hx, hq]; simp),
          List.find?_cons_of_neg _ (by rw [hq]; simp), hxs]
    · rw [List.find?_cons_of_pos _ (by rw [hx, hq]),
          List.find?_cons_of_pos _ hq]

/-- Python `max(_, key=key)` picks the first element whose key is maximal:
it equals `find?` with the is-maximum predicate. -/
theorem pyMax_eq_find_max {α : Type} (key : α → ℚ) :
    ∀ (xs : List α) (x : α),
      some (xs.foldl (fun best y => if key best < key y then y else best) x)
        = (x :: xs).find? (fun p => (x :: xs).all (fun q => decide (key q ≤ key p))) := by
  intro xs
  induction xs with
  | nil =>
    intro x
    rw [List.foldl_nil, List.find?_cons_of_pos _ (by simp)]
  | cons y xs ih =>
    intro x
    rw [List.foldl_cons]
    by_cases hxy : key x < key y
    · have hyx : ¬ key y ≤ key x := not_le.mpr hxy
      rw [if_pos hxy, ih y]
      have hPx : ((x :: y :: xs).all (fun q => decide (key q ≤ key x))) = false := by
        simp [List.all_cons, hyx]
      have hR : ((x :: y :: xs).find?
            (fun p => (x :: y :: xs).all (fun q => decide (key q ≤ key p))))
          = ((y :: xs).find?
            (fun p => (x :: y :: xs).all (fun q => decide (key q ≤ key p)))) :=
        List.find?_cons_of_neg _ (by rw [hPx]; simp)
      rw [hR]
      apply find?_congr_mem
      intro a ha
      simp only [List.all_cons]
      cases hpa : ((decide (key y ≤ key a)) && xs.all (fun q => decide (key q ≤ key a)))
      · simp only [hpa, Bool.and_false]
      · have hya : key y ≤ key a := by
          have := (Bool.and_eq_true _ _).mp hpa
          simpa using this.1
        have hxa : key x ≤ key a := le_trans (le_of_lt hxy) hya
        simp [hpa, hxa]
    · have hyx : key y ≤ key x := le_of_not_lt hxy
      rw [if_neg hxy, ih x]
      have hPQx : ((x :: y :: xs).all (fun q => decide (key q ≤ key x)))
          = ((x :: xs).all (fun q => decide (key q ≤ key x))) := by
        simp [List.all_cons, hyx]
      cases hQx : (x :: xs).all (fun q => decide (key q ≤ key x))
      · have hL : ((x :: xs).find?
              (fun p => (x :: xs).all (fun q => decide (key q ≤ key p))))
            = (xs.find? (fun p => (x :: xs).all (fun q => decide (key q ≤ key p)))) :=
          List.find?_cons_of_neg _ (by rw [hQx]; simp)
        have hPx : ((x :: y :: xs).all (fun q => decide (key q ≤ key x))) = false := by
          rw [hPQx]; exact hQx
        have hR1 : ((x :: y :: xs).find?
              (fun p => (x :: y :: xs).all (fun q => decide (key q ≤ key p))))
            = ((y :: xs).find?
              (fun p => (x :: y :: xs).all (fun q => decide (key q ≤ key p)))) :=
          List.find?_cons_of_neg _ (by rw [hPx]; simp)
        have hQx' : xs.all (fun q => decide (key q ≤ key x)) = false := by
          have := hQx
          simp only [List.all_cons] at this
          simpa using this
        have hPy : ((x :: y :: xs).all (fun q => decide (key q ≤ key y))) = false := by
          by_cases hxy2 : key x ≤ key y
          · have heq : key y = key x := le_antisymm hyx hxy2
            simp [List.all_cons, heq, hQx']
          · simp [List.all_cons, hxy2]
        have hR2 : ((y :: xs).find?
              (fun p => (x :: y :: xs).all (fun q => decide (key q ≤ key p))))
            = (xs.find? (fun p => (x :: y :: xs).all (fun q => decide (key q ≤ key p)))) :=
          List.find?_cons_of_neg _ (by rw [hPy]; simp)
        rw [hL, hR1, hR2]
        apply find?_congr_mem
        intro a ha
        simp only [List.all_cons]
        by_cases hxa : key x ≤ key a
        · have hya : key y ≤ key a := le_trans hyx hxa
          simp [hxa, hya]
        · simp [hxa]
      · have hL : ((x :: xs).find?
              (fun p => (x :: xs).all (fun q => decide (key q ≤ key p))))
            = some x :=
          List.find?_cons_of_pos _ hQx
        have hPx : ((x :: y :: xs).all (fun q => decide (key q ≤ key x))) = true := by
          rw [hPQx]; exact hQx
        have hR : ((x :: y :: xs).find?
              (fun p => (x :: y :: xs).all (fun q => decide (key q ≤ key p))))
            = some x :=
          List.find?_cons_of_pos _ hPx
        rw [hL, hR]

/-- C8 counterexample: a member whose single current pathway has status
"completed": the generated summary has zero active pathways yet names that
pathway — not `"None"` — as most active (the source maximizes over all of
`current_pathways`, not the active ones). -/
theorem c8_counterexample :
    (Member.generate_summary
        { Member.init 1 "u" "A" "B" "e" ["P"] with
          current_pathways := [⟨"P", "c", 1, 50, 0, 0, "completed"⟩] }).summary
      = some ⟨1, 0, 1, "P"⟩ := by
  rfl

/-- C8 amended: `most_active_pathway` is the name of the first pathway (in
insertion order) attaining the maximal completion percentage over *all* of
the member's current pathways, active or completed alike; it is `"None"`
when `current_pathways` is empty (not merely when no pathway is active). -/
theorem c8_most_active_first_maximal (m : Member) :
    ((Member.generate_summary m).summary).map (fun s => s.most_active_pathway)
      = some (match specFirstMax m.current_pathways with
              | some p => p.name
              | none => "None")
    ∧ (m.current_pathways = [] →
        ((Member.generate_summary m).summary).map (fun s => s.most_active_pathway)
          = some "None") := by
  constructor
  · rcases hcp : m.current_pathways with _ | ⟨x, xs⟩
    · simp [Member.generate_summary, pyMax, specFirstMax, hcp]
    · have hx := pyMax_eq_find_max (fun p : Pathway => p.completion_percentage) xs x
      simp only [Member.generate_summary, hcp, specFirstMax, pyMax]
      rw [← hx]
      rfl
  · intro hcp
    simp [Member.generate_summary, pyMax, hcp]

/-- C8 witness: a member with no current pathways is reported as "None". -/
theorem c8_witness :
    ((Member.generate_summary (Member.init 1 "u" "A" "B" "e" [])).summary).map
        (fun s => s.most_active_pathway) = some "None" :=
  (c8_most_active_first_maximal (Member.init 1 "u" "A" "B" "e" [])).2 rfl

/-! ## C10: elective synthesis -/

/-- The child scan collects exactly the incomplete electives and the count
of completed electives, and every collected project (non-elective child)
has type "speech" or "project" — never "elective". -/
theorem scanChildren_spec (pn cid : String) (lvl : Int) (children : List Block) :
    (scanChildren pn cid lvl children).2.1
      = children.filter
          (fun c => c.type == "sequential" && !c.complete && c.block_lib_type == "elective")
    ∧ (scanChildren pn cid lvl children).2.2
      = ((children.filter
          (fun c => c.type == "sequential" && c.complete && c.block_lib_type == "elective")).length : Int)
    ∧ ∀ p ∈ (scanChildren pn cid lvl children).1, p.type ≠ "elective" := by
  induction children with
  | nil => exact ⟨rfl, rfl, by simp [scanChildren]⟩
  | cons c rest ih =>
    obtain ⟨ih1, ih2, ih3⟩ := ih
    by_cases hseq : (c.type == "sequential") = true
    · by_cases hcomp : c.complete = true
      · by_cases helec : (c.block_lib_type == "elective") = true
        · refine ⟨?_, ?_, ?_⟩
          · simp [scanChildren, List.filter_cons, hseq, hcomp, helec, ih1]
          · simp [scanChildren, List.filter_cons, hseq, hcomp, helec, ih2]
            omega
          · intro p hp
            apply ih3
            simpa [scanChildren, hseq, hcomp, helec] using hp
        · refine ⟨?_, ?_, ?_⟩
          · simp [scanChildren, List.filter_cons, hseq, hcomp, helec, ih1]
          · simp [scanChildren, List.filter_cons, hseq, hcomp, helec, ih2]
          · intro p hp
            apply ih3
            simpa [scanChildren, hseq, hcomp, helec] using hp
      · have hcomp' : c.complete = false := by simpa using hcomp
        by_cases helec : (c.block_lib_type == "elective") = true
        · refine ⟨?_, ?_, ?_⟩
          · simp [scanChildren, List.filter_cons, hseq, hcomp', helec, ih1]
          · simp [scanChildren, List.filter_cons, hseq, hcomp', helec, ih2]
          · intro p hp
            apply ih3
            simpa [scanChildren, hseq, hcomp', helec] using hp
        · refine ⟨?_, ?_, ?_⟩
          · simp [scanChildren, List.filter_cons, hseq, hcomp', helec, ih1]
          · simp [scanChildren, List.filter_cons, hseq, hcomp', helec, ih2]
          · intro p hp
            have hp' := by simpa [scanChildren, hseq, hcomp', helec] using hp
            rcases hp' with hp' | hp'
            · rw [hp']
              by_cases hsp : pyContains (pyLower (c.display_name.getD "")) "speech" = true
              · simp [hsp]
              · simp [hsp]
            · exact ih3 p hp'
    · refine ⟨?_, ?_, ?_⟩
      · simp [scanChildren, List.filter_cons, hseq, ih1]
      · simp [scanChildren, List.filter_cons, hseq, ih2]
      · intro p hp
        apply ih3
        simpa [scanChildren, hseq] using hp

/-- C10 counterexample: a chapter with one *completed* elective, one
incomplete elective and `min_req_electives = 1`: the required count is not
greater than the completed count, yet a "Choose 0 elective(s)" entry of
type elective is synthesized (the source only tests `min_req_electives > 0`). -/
theorem c10_counterexample :
    chapter_incomplete_entries
        (Block.mk "chapter" (some "Level 3") false "" 1
          [Block.mk "sequential" (some "E1") true "elective" 0 [],
           Block.mk "sequential" (some "E2") false "elective" 0 []]) "P" "C"
      = [⟨"Choose 0 elective(s) from Level 3", "elective", "P", "C",
          "Varies by selection", 3⟩]
    ∧ ¬((Block.mk "chapter" (some "Level 3") false "" 1
          [Block.mk "sequential" (some "E1") true "elective" 0 [],
           Block.mk "sequential" (some "E2") false "elective" 0 []]).min_req_electives
        > chapterCompletedElectives
            (Block.mk "chapter" (some "Level 3") false "" 1
              [Block.mk "sequential" (some "E1") true "elective" 0 [],
               Block.mk "sequential" (some "E2") false "elective" 0 []])) := by
  constructor
  · rfl
  · decide

/-- C10 amended: a chapter contributes its incomplete non-elective entries
(all typed "speech"/"project"), and exactly one synthesized elective entry —
`"Choose N elective(s) from <chapter>"` with `N = min_req_electives −
completed electives`, which may be ≤ 0 — precisely when some elective
choices remain incomplete *and* `min_req_electives > 0` (not
`min_req_electives > completed`); no entry is emitted for an individual
incomplete elective item. -/
theorem c10_elective_entry_synthesis (chapter : Block) (pathway_name course_id : String) :
    chapter_incomplete_entries chapter pathway_name course_id
      = (scanChildren pathway_name course_id
            (extract_level_number (chapter.display_name.getD "")) chapter.children).1
        ++ (if (chapterElectiveChoices chapter).isEmpty = false
               ∧ chapter.min_req_electives > 0
            then [⟨chooseElectivesName
                     (chapter.min_req_electives - chapterCompletedElectives chapter)
                     (chapter.display_name.getD ""),
                   "elective", pathway_name, course_id, "Varies by selection",
                   extract_level_number (chapter.display_name.getD "")⟩]
            else [])
    ∧ (scanChildren pathway_name course_id
          (extract_level_number (chapter.display_name.getD "")) chapter.children).2.1
        = chapterElectiveChoices chapter
    ∧ (∀ p ∈ (scanChildren pathway_name course_id
          (extract_level_number (chapter.display_name.getD "")) chapter.children).1,
        p.type ≠ "elective") := by
  obtain ⟨h1, h2, h3⟩ := scanChildren_spec pathway_name course_id
    (extract_level_number (chapter.display_name.getD "")) chapter.children
  have h1' : (scanChildren pathway_name course_id
      (extract_level_number (chapter.display_name.getD "")) chapter.children).2.1
      = chapterElectiveChoices chapter := h1
  have h2' : (scanChildren pathway_name course_id
      (extract_level_number (chapter.display_name.getD "")) chapter.children).2.2
      = chapterCompletedElectives chapter := h2
  refine ⟨?_, h1', h3⟩
  unfold chapter_incomplete_entries
  dsimp only
  rw [h1', h2']
  cases hne : (chapterElectiveChoices chapter).isEmpty
  · by_cases hmin : chapter.min_req_electives > 0
    · simp [hmin]
    · simp [hmin]
  · simp

/-- C10 witness: a chapter with one incomplete elective, none completed and
`min_req_electives = 1` yields exactly the one "Choose 1" entry. -/
theorem c10_witness :
    chapter_incomplete_entries
        (Block.mk "chapter" (some "Level 2") false "" 1
          [Block.mk "sequential" (some "E2") false "elective" 0 []]) "P" "C"
      = (scanChildren "P" "C" 2
            (Block.mk "chapter" (some "Level 2") false "" 1
              [Block.mk "sequential" (some "E2") false "elective" 0 []]).children).1
        ++ [⟨"Choose 1 elective(s) from Level 2", "elective", "P", "C",
             "Varies by selection", 2⟩] := by
  have h := (c10_elective_entry_synthesis
    (Block.mk "chapter" (some "Level 2") false "" 1
      [Block.mk "sequential" (some "E2") false "elective" 0 []]) "P" "C").1
  rw [h]
  decide

/-! ## C7: aggregator idempotence -/

/-- The club step always raises before consulting the clock. -/
theorem build_club_index_always_type_error (club_id club_name : String)
    (members : MemberIndex) (now : String) :
    build_club_index club_id club_name members now = Except.error PyError.typeError := rfl

/-- C7 counterexample: over the empty raw dataset the Aggregator yields no
Member/Club model output at all (it raises `TypeError`, see C1); and the
club-summary operation that would build the Club model embeds the current
clock in `Statistics.summary_generated_at`, so two invocations at different
instants yield different output. -/
theorem c7_counterexample :
    build_indexes { overview := [], progress := [], progress_detail := [] } none
        "c1" "Club" "2024-01-01T00:00:00"
      = Except.error PyError.typeError
    ∧ Club.generate_summary
        ({ club_id := "c1", club_name := "Club", dashboard_club_id := "d1",
           members := [], statistics := none, distribution := none } : Club String)
        [] "2024-01-01T00:00:00"
      ≠ Club.generate_summary
        ({ club_id := "c1", club_name := "Club", dashboard_club_id := "d1",
           members := [], statistics := none, distribution := none } : Club String)
        [] "2024-01-01T00:00:01" := by
  constructor
  · rfl
  · intro h
    have h1 : Club.generate_summary
        ({ club_id := "c1", club_name := "Club", dashboard_club_id := "d1",
           members := [], statistics := none, distribution := none } : Club String)
        [] "2024-01-01T00:00:00"
        = Except.ok
            { club_id := "c1", club_name := "Club", dashboard_club_id := "d1",
              members := [], statistics := some ⟨0, 0, 0, "2024-01-01T00:00:00"⟩,
              distribution := some ⟨[], []⟩ } := rfl
    have h2 : Club.generate_summary
        ({ club_id := "c1", club_name := "Club", dashboard_club_id := "d1",
           members := [], statistics := none, distribution := none } : Club String)
        [] "2024-01-01T00:00:01"
        = Except.ok
            { club_id := "c1", club_name := "Club", dashboard_club_id := "d1",
              members := [], statistics := some ⟨0, 0, 0, "2024-01-01T00:00:01"⟩,
              distribution := some ⟨[], []⟩ } := rfl
    rw [h1, h2] at h
    have h3 := congrArg (fun c : Club String => c.statistics) (Except.ok.inj h)
    simp at h3

/-- C7 amended: the Aggregator run is bit-identical across clocks because it
is deterministic in the raw dataset — but it never yields a Member/Club
model (the club step raises `TypeError`); and `Club.generate_summary`, the
operation that would produce the Club model, is deterministic in all its
output *except* the embedded generation timestamp. -/
theorem c7_aggregator_deterministic_modulo_clock :
    ∀ (raw : RawData) (pathways : Option PathwaysData) (club_id club_name : String)
      (now₁ now₂ : String) (δ : Type) (club : Club δ) (enroll : List EnrollmentStatus),
      build_indexes raw pathways club_id club_name now₁
        = build_indexes raw pathways club_id club_name now₂
      ∧ (build_indexes raw pathways club_id club_name now₁).isOk = false
      ∧ (Club.generate_summary club enroll now₁).map scrubTimestamp
        = (Club.generate_summary club enroll now₂).map scrubTimestamp := by
  intro raw pathways club_id club_name now₁ now₂ δ club enroll
  have hclub : ∀ (ms : MemberIndex) (now : String),
      build_club_index club_id club_name ms now = Except.error PyError.typeError :=
    fun ms now => rfl
  refine ⟨?_, ?_, ?_⟩
  · unfold build_indexes
    cases h : build_member_index raw pathways with
    | error e => rfl
    | ok ms => rfl
  · unfold build_indexes
    cases h : build_member_index raw pathways with
    | error e => rfl
    | ok ms => rfl
  · unfold Club.generate_summary
    cases h : clubLoop (club.members.map (fun kv => kv.2)) 0 [] [] with
    | error e => rfl
    | ok triple => rfl

/-! ## C9: the `current_pathways` invariant -/

/-- A successful lookup comes from a member of the association list. -/
theorem alookup_some_mem {α : Type} :
    ∀ (ms : List (String × α)) (u : String) (v : α),
      alookup ms u = some v → (u, v) ∈ ms := by
  intro ms
  induction ms with
  | nil => intro u v h; simp [alookup] at h
  | cons kv rest ih =>
    intro u v h
    rcases kv with ⟨k, w⟩
    by_cases hk : k = u
    · rw [alookup, if_pos hk] at h
      obtain rfl : w = v := Option.some.inj h
      rw [← hk]
      exact List.mem_cons_self _ _
    · rw [alookup, if_neg hk] at h
      exact List.mem_cons_of_mem _ (ih u v h)

/-- `updateValue` changes at most the looked-up key's value. -/
theorem alookup_updateValue {α : Type} :
    ∀ (ms : List (String × α)) (k u : String) (f : α → α),
      alookup (updateValue ms k f) u
        = if k = u then (alookup ms u).map f else alookup ms u := by
  intro ms
  induction ms with
  | nil => intro k u f; by_cases h : k = u <;> simp [alookup, updateValue, h]
  | cons kv rest ih =>
    intro k u f
    rcases kv with ⟨k₀, v₀⟩
    have hrest := ih k u f
    have hcons : updateValue ((k₀, v₀) :: rest) k f
        = (if k₀ = k then (k₀, f v₀) else (k₀, v₀)) :: updateValue rest k f := rfl
    rw [hcons]
    by_cases hc : k₀ = k
    · rw [if_pos hc]
      by_cases hu : k₀ = u
      · have hku : k = u := by rw [← hc]; exact hu
        simp [alookup, hu, hku]
      · have hku : ¬ k = u := fun h => hu (by rw [hc]; exact h)
        simp [alookup, hu, hku, hrest]
    · rw [if_neg hc]
      by_cases hu : k₀ = u
      · have hku : ¬ k = u := fun h => hc (hu.trans h.symm)
        simp [alookup, hu, hku]
      · simp [alookup, hu, hrest]

/-- Folding per-result updates over an insertion-ordered dict: the final
value at key `u` is the initial one folded through the results keyed `u`. -/
theorem alookup_foldl_update {α R : Type} (key : R → String) (h : α → R → α) :
    ∀ (rs : List R) (ms : List (String × α)) (u : String),
      alookup (rs.foldl (fun ms r => updateValue ms (key r) (fun v => h v r)) ms) u
        = (alookup ms u).map
            (fun v => (rs.filter (fun r => key r == u)).foldl h v) := by
  intro rs
  induction rs with
  | nil =>
    intro ms u
    rw [List.foldl_nil]
    cases alookup ms u <;> rfl
  | cons r rs ih =>
    intro ms u
    rw [List.foldl_cons, ih, alookup_updateValue]
    by_cases hk : key r = u
    · have hkb : (key r == u) = true := by simp [hk]
      rw [if_pos hk]
      simp only [List.filter_cons, hkb, Option.map_map]
      cases alookup ms u <;> simp [Function.comp]
    · have hkb : (key r == u) = false := by simp [hk]
      rw [if_neg hk]
      simp [List.filter_cons, hkb]

/-- A fold of per-result folds over pages equals one fold over the
flattened results. -/
theorem nested_foldl_results {α β γ : Type} (getResults : β → List γ) (g : α → γ → α) :
    ∀ (pages : List β) (init : α),
      pages.foldl (fun acc page => (getResults page).foldl g acc) init
        = ((pages.map getResults).flatten).foldl g init := by
  intro pages
  induction pages with
  | nil => intro init; rfl
  | cons p ps ih =>
    intro init
    simp only [List.foldl_cons, List.map_cons, List.flatten_cons, List.foldl_append]
    exact ih _

/-- Looking up after mapping values. -/
theorem alookup_map_snd {α β : Type} (f : α → β) :
    ∀ (ms : List (String × α)) (u : String),
      alookup (ms.map (fun kv => (kv.1, f kv.2))) u = (alookup ms u).map f := by
  intro ms
  induction ms with
  | nil => intro u; rfl
  | cons kv rest ih =>
    intro u
    by_cases hk : kv.1 = u
    · simp [alookup, hk]
    · simp [alookup, hk, ih]

/-- `add_pathway_progress` appends exactly one entry carrying its pathway
name. -/
theorem add_pathway_progress_names (m : Member) (pn cid : String) (prog : Progression) :
    ((m.add_pathway_progress pn cid prog).current_pathways).map (fun p => p.name)
      = m.current_pathways.map (fun p => p.name) ++ [pn] := by
  simp [Member.add_pathway_progress]

/-- Folding progress results appends their path names in order. -/
theorem foldl_add_pathway_names :
    ∀ (rs : List ProgressResult) (m : Member),
      (((rs.foldl (fun m r =>
          m.add_pathway_progress r.path_name r.course_id r.progression) m)).current_pathways).map
          (fun p => p.name)
        = m.current_pathways.map (fun p => p.name) ++ rs.map (fun r => r.path_name) := by
  intro rs
  induction rs with
  | nil => intro m; simp
  | cons r rs ih =>
    intro m
    rw [List.foldl_cons, ih, add_pathway_progress_names]
    simp

/-- `add_detailed_progress` never touches `current_pathways`. -/
theorem add_detailed_progress_cp (m : Member) (cid : String) (d : DetailedData) :
    (m.add_detailed_progress cid d).current_pathways = m.current_pathways := by
  unfold Member.add_detailed_progress
  rcases hb : d.blocks with _ | b
  · rfl
  · dsimp only
    rcases hnp : extract_next_projects (b.display_name.getD "Unknown") cid b.children
        with _ | ⟨p, ps⟩ <;> rfl

/-- Folding detail records never touches `current_pathways`. -/
theorem foldl_add_detailed_cp :
    ∀ (es : List DetailRecord) (m : Member),
      ((es.foldl (fun m e => m.add_detailed_progress e.course_id e.data) m)).current_pathways
        = m.current_pathways := by
  intro es
  induction es with
  | nil => intro m; rfl
  | cons e es ih =>
    intro m
    rw [List.foldl_cons, ih, add_detailed_progress_cp]

/-- `generate_summary` never touches `current_pathways`. -/
theorem generate_summary_cp (m : Member) :
    (m.generate_summary).current_pathways = m.current_pathways := rfl

/-- Members created by the overview pass have no current pathways. -/
theorem foldl_insert_cp :
    ∀ (results : List OverviewResult) (ms : MemberIndex),
      (∀ kv ∈ ms, kv.2.current_pathways = []) →
      ∀ kv ∈ results.foldl insertOverviewResult ms, kv.2.current_pathways = [] := by
  intro results
  induction results with
  | nil => intro ms h; exact h
  | cons r rs ih =>
    intro ms h
    apply ih
    intro kv hkv
    unfold insertOverviewResult at hkv
    by_cases hs : (alookup ms r.user.username).isSome = true
    · rw [if_pos hs] at hkv; exact h kv hkv
    · rw [if_neg hs] at hkv
      rcases List.mem_append.mp hkv with hkv | hkv
      · exact h kv hkv
      · have : kv = (r.user.username,
            Member.init r.user.id r.user.username r.user.first_name
              r.user.last_name r.user.email r.completed_paths) := by
          simpa using hkv
        rw [this]
        rfl

/-- Step 1 produces only members with empty `current_pathways`. -/
theorem memberIndexStep1_cp (raw : RawData) :
    ∀ kv ∈ memberIndexStep1 raw, kv.2.current_pathways = [] := by
  unfold memberIndexStep1
  suffices H : ∀ (pages : List OverviewPage) (ms : MemberIndex),
      (∀ kv ∈ ms, kv.2.current_pathways = []) →
      ∀ kv ∈ pages.foldl (fun ms page => page.results.foldl insertOverviewResult ms) ms,
        kv.2.current_pathways = [] by
    exact H raw.overview [] (by simp)
  intro pages
  induction pages with
  | nil => intro ms h; exact h
  | cons p ps ih =>
    intro ms h
    exact ih _ (foldl_insert_cp p.results ms h)

/-- Enrichment preserves every member's key and `current_pathways`. -/
theorem enrichMembers_alookup_cp (pd : PathwaysData) :
    ∀ (ms ms' : MemberIndex), enrichMembers pd ms = .ok ms' →
      ∀ u, (alookup ms' u).map (fun m => m.current_pathways)
            = (alookup ms u).map (fun m => m.current_pathways) := by
  intro ms
  induction ms with
  | nil =>
    intro ms' h u
    obtain rfl : ([] : MemberIndex) = ms' := Except.ok.inj h
    rfl
  | cons kv rest ih =>
    intro ms' h u
    unfold enrichMembers at h
    cases hnps : kv.2.next_projects.mapM (enrich_project_with_details pd) with
    | error e => rw [hnps] at h; exact absurd h (by simp)
    | ok nps =>
      rw [hnps] at h
      cases hrest : enrichMembers pd rest with
      | error e => rw [hrest] at h; exact absurd h (by simp)
      | ok rest' =>
        rw [hrest] at h
        obtain rfl : (kv.1, { kv.2 with next_projects := nps }) :: rest' = ms' :=
          Except.ok.inj h
        by_cases hk : kv.1 = u
        · simp [alookup, hk]
        · simp only [alookup, if_neg hk]
          exact ih rest' hrest u

/-- Distinct `(username, path_name)` pairs give distinct path names within
one user's progress results. -/
theorem names_nodup_of_pairs_nodup (rs : List ProgressResult) (u : String)
    (hnd : (rs.map (fun r => (r.user.username, r.path_name))).Nodup) :
    ((rs.filter (fun r => r.user.username == u)).map (fun r => r.path_name)).Nodup := by
  have hsub : ((rs.filter (fun r => r.user.username == u)).map
      (fun r => (r.user.username, r.path_name))).Nodup :=
    hnd.sublist (List.Sublist.map _ (List.filter_sublist _))
  have hcongr : (rs.filter (fun r => r.user.username == u)).map
        (fun r => (r.user.username, r.path_name))
      = (rs.filter (fun r => r.user.username == u)).map (fun r => (u, r.path_name)) := by
    apply List.map_congr_left
    intro r hr
    have hu : r.user.username = u := by
      simpa using (List.mem_filter.mp hr).2
    rw [hu]
  rw [hcongr] at hsub
  have hcomp : (rs.filter (fun r => r.user.username == u)).map (fun r => (u, r.path_name))
      = ((rs.filter (fun r => r.user.username == u)).map (fun r => r.path_name)).map
          (fun n => (u, n)) := by
    rw [List.map_map]
    rfl
  rw [hcomp] at hsub
  exact List.Nodup.of_map _ hsub

/-- With distinct names, at most one entry matches each name. -/
theorem filter_name_length_le_one (cp : List Pathway)
    (hnd : (cp.map (fun p => p.name)).Nodup) :
    ∀ n, (cp.filter (fun p => p.name == n)).length ≤ 1 := by
  intro n
  have hcount : (cp.map (fun p => p.name)).count n ≤ 1 :=
    List.nodup_iff_count_le_one.mp hnd n
  have heq : (cp.filter (fun p => p.name == n)).length
      = (cp.map (fun p => p.name)).count n := by
    rw [List.count, List.countP_map, List.countP_eq_length_filter]
    rfl
  omega

/-- C9 amended: for every raw dataset on which `build_member_index`
succeeds, each member's `current_pathways` names are exactly the
`path_name`s of that user's progress results, in ingestion order — so
`add_pathway_progress` appends unconditionally, and the at-most-one-entry-
per-name invariant holds precisely when the raw progress data repeats no
`(username, path_name)` pair. -/
theorem c9_current_pathways_names (raw : RawData) (pathways : Option PathwaysData)
    (ms : MemberIndex) (u : String) (m : Member)
    (hb : build_member_index raw pathways = Except.ok ms)
    (hm : alookup ms u = some m) :
    m.current_pathways.map (fun p => p.name)
      = ((progressResults raw).filter (fun r => r.user.username == u)).map
          (fun r => r.path_name)
    ∧ (((progressResults raw).map (fun r => (r.user.username, r.path_name))).Nodup →
       ∀ n, (m.current_pathways.filter (fun p => p.name == n)).length ≤ 1) := by
  -- lookups through the three data-ingestion steps
  have h2 : ∀ (w : String), alookup (memberIndexStep2 raw (memberIndexStep1 raw)) w
      = (alookup (memberIndexStep1 raw) w).map
          (fun v => ((progressResults raw).filter (fun r => r.user.username == w)).foldl
            (fun m r => m.add_pathway_progress r.path_name r.course_id r.progression) v) := by
    intro w
    unfold memberIndexStep2
    rw [nested_foldl_results (α := MemberIndex) (β := ProgressPage) (γ := ProgressResult)
      (fun page => page.results)
      (fun ms result => updateValue ms result.user.username
        (fun m => m.add_pathway_progress result.path_name result.course_id
          result.progression))]
    exact alookup_foldl_update (fun r => r.user.username)
      (fun m r => m.add_pathway_progress r.path_name r.course_id r.progression)
      (progressResults raw) (memberIndexStep1 raw) w
  have h3 : ∀ (w : String),
      alookup (memberIndexStep3 raw (memberIndexStep2 raw (memberIndexStep1 raw))) w
      = (alookup (memberIndexStep2 raw (memberIndexStep1 raw)) w).map
          (fun v => (raw.progress_detail.filter (fun e => e.username == w)).foldl
            (fun m e => m.add_detailed_progress e.course_id e.data) v) := by
    intro w
    exact alookup_foldl_update (fun e => e.username)
      (fun m e => m.add_detailed_progress e.course_id e.data)
      raw.progress_detail (memberIndexStep2 raw (memberIndexStep1 raw)) w
  -- the final index's lookup at u, with current_pathways preserved
  have hfinal : (alookup ms u).map (fun m => m.current_pathways)
      = (alookup (memberIndexStep3 raw (memberIndexStep2 raw (memberIndexStep1 raw))) u).map
          (fun m => m.current_pathways) := by
    unfold build_member_index at hb
    cases hp : pathways with
    | none =>
      rw [hp] at hb
      dsimp only at hb
      obtain rfl : (memberIndexStep3 raw
          (memberIndexStep2 raw (memberIndexStep1 raw))).map
            (fun kv => (kv.1, kv.2.generate_summary)) = ms := Except.ok.inj hb
      rw [alookup_map_snd]
      cases alookup (memberIndexStep3 raw (memberIndexStep2 raw (memberIndexStep1 raw))) u
      · rfl
      · rfl
    | some pd =>
      rw [hp] at hb
      dsimp only at hb
      cases henr : enrichMembers pd
          (memberIndexStep3 raw (memberIndexStep2 raw (memberIndexStep1 raw))) with
      | error e => rw [henr] at hb; exact absurd hb (by simp)
      | ok ms4 =>
        rw [henr] at hb
        obtain rfl : ms4.map (fun kv => (kv.1, kv.2.generate_summary)) = ms :=
          Except.ok.inj hb
        rw [alookup_map_snd]
        have hen := enrichMembers_alookup_cp pd _ ms4 henr u
        rw [← hen]
        cases alookup ms4 u
        · rfl
        · rfl
  -- resolve the step-1 member
  cases h1 : alookup (memberIndexStep1 raw) u with
  | none =>
    rw [hm] at hfinal
    rw [h3, h2, h1] at hfinal
    simp only [Option.map_none', Option.map_some'] at hfinal
    exact Option.noConfusion hfinal
  | some m1 =>
    have hcp1 : m1.current_pathways = [] :=
      memberIndexStep1_cp raw (u, m1) (alookup_some_mem _ _ _ h1)
    rw [hm, h3, h2, h1] at hfinal
    simp only [Option.map_some'] at hfinal
    have hcp : m.current_pathways
        = (((progressResults raw).filter (fun r => r.user.username == u)).foldl
            (fun m r => m.add_pathway_progress r.path_name r.course_id r.progression)
            m1).current_pathways := by
      have := Option.some.inj hfinal
      rw [this, foldl_add_detailed_cp]
    have hnames : m.current_pathways.map (fun p => p.name)
        = ((progressResults raw).filter (fun r => r.user.username == u)).map
            (fun r => r.path_name) := by
      rw [hcp, foldl_add_pathway_names, hcp1]
      rfl
    refine ⟨hnames, ?_⟩
    intro hnd n
    apply filter_name_length_le_one
    rw [hnames]
    exact names_nodup_of_pairs_nodup (progressResults raw) u hnd

/-- C9 counterexample: a raw dataset whose progress pages carry the same
`(username, path_name)` result twice gives that member *two*
`current_pathways` entries named "P": `add_pathway_progress` appends
unconditionally, so the at-most-one-entry-per-name invariant fails. -/
theorem c9_counterexample :
    (build_member_index
        { overview := [⟨[⟨⟨1, "u", "A", "B", "e"⟩, []⟩]⟩],
          progress := [⟨[⟨⟨1, "u", "A", "B", "e"⟩, "P", "c", []⟩,
                         ⟨⟨1, "u", "A", "B", "e"⟩, "P", "c", []⟩]⟩],
          progress_detail := [] } none).map
        (fun ms => (alookup ms "u").map
          (fun m => (m.current_pathways.filter (fun p => p.name == "P")).length))
      = Except.ok (some 2) := by
  rfl

/-- C9 witness: a dataset with a single progress result for the single
member; the member's pathway names are exactly that one path name. -/
theorem c9_witness :
    ({ Member.init 1 "u" "A" "B" "e" [] with
        current_pathways := [⟨"P", "c", 1, 0, 0, 0, "active"⟩],
        summary := some ⟨1, 1, 0, "P"⟩ } : Member).current_pathways.map (fun p => p.name)
      = ((progressResults
            { overview := [⟨[⟨⟨1, "u", "A", "B", "e"⟩, []⟩]⟩],
              progress := [⟨[⟨⟨1, "u", "A", "B", "e"⟩, "P", "c", []⟩]⟩],
              progress_detail := [] }).filter
          (fun r => r.user.username == "u")).map (fun r => r.path_name)
    ∧ (((progressResults
            { overview := [⟨[⟨⟨1, "u", "A", "B", "e"⟩, []⟩]⟩],
              progress := [⟨[⟨⟨1, "u", "A", "B", "e"⟩, "P", "c", []⟩]⟩],
              progress_detail := [] }).map (fun r => (r.user.username, r.path_name))).Nodup →
       ∀ n, (({ Member.init 1 "u" "A" "B" "e" [] with
          current_pathways := [⟨"P", "c", 1, 0, 0, 0, "active"⟩],
          summary := some ⟨1, 1, 0, "P"⟩ } : Member).current_pathways.filter
            (fun p => p.name == n)).length ≤ 1) :=
  c9_current_pathways_names
    { overview := [⟨[⟨⟨1, "u", "A", "B", "e"⟩, []⟩]⟩],
      progress := [⟨[⟨⟨1, "u", "A", "B", "e"⟩, "P", "c", []⟩]⟩],
      progress_detail := [] } none
    [("u", { Member.init 1 "u" "A" "B" "e" [] with
        current_pathways := [⟨"P", "c", 1, 0, 0, 0, "active"⟩],
        summary := some ⟨1, 1, 0, "P"⟩ })]
    "u"
    ({ Member.init 1 "u" "A" "B" "e" [] with
        current_pathways := [⟨"P", "c", 1, 0, 0, 0, "active"⟩],
        summary := some ⟨1, 1, 0, "P"⟩ })
    (by rfl) (by rfl)

end TCR
